import Mathlib

/-!
Verification of the reconciliation engine of `app1.py` (Meesho seller
dashboard).  Tables are embedded shallowly: a cell is null (NaN/None),
a string, or a number (`ℚ` stands for the numeric values pandas works
with; numeric-parseable text is embedded as `Cell.num`, non-numeric
text as `Cell.str`).  Dataframes are a header list plus a list of rows.
-/

set_option autoImplicit false

namespace App1

/-- A spreadsheet cell: null (NaN / None / missing), text, or a number. -/
inductive Cell where
  | null : Cell
  | str : String → Cell
  | num : ℚ → Cell
  deriving DecidableEq, Repr

/-- Python `str(x)`: `str(nan) = "nan"`; numbers are rendered to text
(the exact float rendering is irrelevant to the claims). -/
def pyStr : Cell → String
  | Cell.null => "nan"
  | Cell.str s => s
  | Cell.num q => toString q

/-- Python `s.lower()` (ASCII case fold, as used by the source). -/
def pyLower (s : String) : String :=
  String.mk (s.toList.map Char.toLower)

/-- Python `s.strip()`: drop leading and trailing whitespace. -/
def pyStrip (s : String) : String :=
  String.mk (((s.toList.dropWhile Char.isWhitespace).reverse.dropWhile
    Char.isWhitespace).reverse)

/-- `pd.to_numeric(x, errors='coerce').fillna(0)`: null and
non-numeric text coerce to 0. -/
def toNumeric0 : Cell → ℚ
  | Cell.null => 0
  | Cell.str _ => 0
  | Cell.num q => q

/-- Does the character list `s` start with `pat`? (`str.startswith`). -/
def startsWithL : List Char → List Char → Bool
  | _, [] => true
  | [], _ :: _ => false
  | c :: cs, d :: ds => c == d && startsWithL cs ds

/-- Does the character list `s` contain `pat` as a contiguous run?
(Python `pat in s`). -/
def containsL : List Char → List Char → Bool
  | [], pat => pat.isEmpty
  | c :: rest, pat => startsWithL (c :: rest) pat || containsL rest pat

/-- Python substring test `pat in s`. -/
def strContains (s pat : String) : Bool :=
  containsL s.toList pat.toList

theorem startsWithL_iff (pat s : List Char) :
    startsWithL s pat = true ↔ ∃ t, s = pat ++ t := by
  induction pat generalizing s with
  | nil =>
    cases s <;> simp [startsWithL]
  | cons d ds ih =>
    cases s with
    | nil => simp [startsWithL]
    | cons c cs =>
      simp only [startsWithL, Bool.and_eq_true, beq_iff_eq, ih]
      constructor
      · rintro ⟨rfl, t, rfl⟩
        exact ⟨t, rfl⟩
      · rintro ⟨t, h⟩
        cases h
        exact ⟨rfl, t, rfl⟩

theorem containsL_iff (s pat : List Char) :
    containsL s pat = true ↔ ∃ l r, s = l ++ pat ++ r := by
  induction s with
  | nil =>
    cases pat <;> simp [containsL]
  | cons c rest ih =>
    simp only [containsL, Bool.or_eq_true, ih, startsWithL_iff]
    constructor
    · rintro (⟨t, h⟩ | ⟨l, r, h⟩)
      · exact ⟨[], t, by simpa using h⟩
      · exact ⟨c :: l, r, by simp [h]⟩
    · rintro ⟨l, r, h⟩
      cases l with
      | nil =>
        exact Or.inl ⟨r, by simpa using h⟩
      | cons x xs =>
        right
        refine ⟨xs, r, ?_⟩
        simp only [List.cons_append] at h
        exact congrArg List.tail h

theorem containsL_trans {a b c : List Char}
    (h1 : containsL b a = true) (h2 : containsL c b = true) :
    containsL c a = true := by
  rw [containsL_iff] at h1 h2 ⊢
  obtain ⟨l1, r1, rfl⟩ := h1
  obtain ⟨l2, r2, rfl⟩ := h2
  exact ⟨l2 ++ l1, r1 ++ r2, by simp [List.append_assoc]⟩

theorem strContains_trans {a b c : String}
    (h1 : strContains b a = true) (h2 : strContains c b = true) :
    strContains c a = true :=
  containsL_trans h1 h2

/-- A dataframe: named columns and rows of cells (row `i`, column `j`). -/
structure DF where
  cols : List String
  data : List (List Cell)
  deriving DecidableEq, Repr

/-- Header normalization of `normalize_columns` (app1.py line 42):
lowercase, then remove spaces, underscores and periods (replacing a
one-character pattern by the empty string removes that character). -/
def normalizeName (s : String) : String :=
  String.mk ((s.toList.map Char.toLower).filter
    (fun c => !(c == ' ' || c == '_' || c == '.')))

/-- `normalize_columns` (app1.py lines 40..43): standardizes the column
names; cell data is untouched. -/
def normalize_columns (df : DF) : DF :=
  { df with cols := df.cols.map normalizeName }

/-- Does a (normalized) column name match any keyword? (the `any`
inside `find_column`, app1.py line 48). -/
def matchesKeyword (keywords : List String) (col : String) : Bool :=
  keywords.any (fun k => strContains col k)

/-- `find_column` (app1.py lines 45..50): the first column, in original
column order, whose name contains any of the keywords as a substring;
`none` when no column matches. -/
def find_column (df : DF) (keywords : List String) : Option String :=
  df.cols.find? (fun col => matchesKeyword keywords col)

/-- Value of row `row` in the column named `c` (first column of that
name), null when the column is absent. -/
def colVal (cols : List String) (row : List Cell) (c : String) : Cell :=
  match cols.indexOf? c with
  | some i => row.getD i Cell.null
  | none => Cell.null

/-- One collected payment row after the per-sheet selection of app1.py
lines 139..148: the order id as a string, the raw amount cell, and the
payment-status cell (null when the sheet had no status column). -/
structure PRow where
  suborderno : String
  amount : Cell
  payment_status : Cell
  deriving DecidableEq, Repr

/-- Keywords for the payment amount column (app1.py line 135). -/
def amountKeywords : List String :=
  ["finalsettlement", "settlementamount", "netamount"]

/-- Keywords for the payment status column (app1.py line 136). -/
def statusKeywords : List String :=
  ["liveorderstatus", "orderstatus"]

/-- One sheet of a payment file, as handed to `pd.read_excel`: either a
grid of cells (first row holding the header cells), or a sheet whose
read raises an exception. -/
inductive SheetSrc where
  | ok : List (List Cell) → SheetSrc
  | raises : SheetSrc
  deriving DecidableEq, Repr

/-- `pd.read_excel(xls, sheet_name=sheet)` (app1.py line 123): first
grid row becomes the header, the rest the data. -/
def read0 (g : List (List Cell)) : DF :=
  { cols := (g.headD []).map pyStr, data := g.tail }

/-- `pd.read_excel(xls, sheet_name=sheet, header=1)` (app1.py line
129): second grid row becomes the header. -/
def read1 (g : List (List Cell)) : DF :=
  { cols := (g.tail.headD []).map pyStr, data := g.tail.tail }

/-- The `temp_cols` check of app1.py lines 127..128: lowercase the raw
header names, remove spaces and ask whether `"suborder"` occurs
(substring of the stringified list = substring of some name, since the
pattern contains no separator character). -/
def headerHasSuborder (cols : List String) : Bool :=
  cols.any (fun c =>
    strContains (String.mk ((c.toList.map Char.toLower).filter
      (fun ch => !(ch == ' ')))) "suborder")

/-- The dataframe the sheet ends up with after the one-time malformed
header fallback (app1.py lines 127..132) and normalization: when the
raw header carries no `"suborder"` token and there are more than 2 data
rows, the sheet is re-read with the second row as header; then columns
are normalized. -/
def chosenDF (g : List (List Cell)) : DF :=
  let df0 := read0 g
  normalize_columns
    (if headerHasSuborder df0.cols = false ∧ 2 < df0.data.length
     then read1 g else df0)

/-- Rows contributed by a resolved sheet (app1.py lines 139..148): drop
rows with a null order id, stringify the order id, keep the amount cell
and, when a status column resolved, the status cell. -/
def extractRows (df : DF) (p_id p_amt : String) (p_status : Option String) :
    List PRow :=
  (df.data.filter (fun r => colVal df.cols r p_id ≠ Cell.null)).map
    (fun r =>
      { suborderno := pyStr (colVal df.cols r p_id)
        amount := colVal df.cols r p_amt
        payment_status :=
          match p_status with
          | some c => colVal df.cols r c
          | none => Cell.null })

/-- Processing of one successfully read sheet (app1.py lines 123..148):
skip when it has fewer than 2 data rows; apply the header fallback;
resolve order-id and amount columns and skip the sheet when either is
missing; otherwise collect its rows. -/
def processSheet (g : List (List Cell)) : List PRow :=
  if (read0 g).data.length < 2 then []
  else
    let df := chosenDF g
    match find_column df ["suborder"], find_column df amountKeywords with
    | some p_id, some p_amt =>
        extractRows df p_id p_amt (find_column df statusKeywords)
    | some _, none => []
    | none, _ => []

/-- Processing of the sheets of one payment file (app1.py lines
119..149): the `try` wraps the whole sheet loop, so a sheet whose read
raises drops the remaining sheets of that file; the rows already
appended from its earlier sheets are kept. -/
def processSheets : List SheetSrc → List PRow
  | [] => []
  | SheetSrc.raises :: _ => []
  | SheetSrc.ok g :: rest => processSheet g ++ processSheets rest

/-- All collected payment rows across files (`payment_frames` /
`pd.concat`, app1.py lines 117, 152): per-file processing, concatenated
in file order. -/
def collectAll (files : List (List SheetSrc)) : List PRow :=
  files.foldr (fun f acc => processSheets f ++ acc) []

/-- Add one payment to a running per-order-id total (the accumulation
step of `groupby("suborderno")["amount"].sum()`). -/
def addPayment (acc : List (String × ℚ)) (oid : String) (amt : ℚ) :
    List (String × ℚ) :=
  match acc with
  | [] => [(oid, amt)]
  | (k, v) :: rest =>
      if k == oid then (k, v + amt) :: rest
      else (k, v) :: addPayment rest oid amt

/-- `amount_summary` (app1.py lines 153..155): coerce every amount to a
number (null / non-numeric text becoming 0) and sum the amounts grouped
by order id; one entry per distinct order id. -/
def amount_summary (rows : List PRow) : List (String × ℚ) :=
  rows.foldl (fun acc r => addPayment acc r.suborderno (toNumeric0 r.amount)) []

/-- Per-order-id amount read off a summary; 0 when the order id is
absent (the `fillna(0)` after the left merge, app1.py line 170). -/
def lookupAmount (summary : List (String × ℚ)) (oid : String) : ℚ :=
  match summary.find? (fun p => p.1 == oid) with
  | some p => p.2
  | none => 0

/-- Specification-side formula: the plain sum of the coerced amounts of
the collected rows bearing a given order id. -/
def sumAmounts (rows : List PRow) (oid : String) : ℚ :=
  ((rows.filter (fun r => r.suborderno == oid)).map
    (fun r => toNumeric0 r.amount)).sum

/-- `dropna(subset=['payment_status'])` (app1.py line 158). -/
def status_rows (rows : List PRow) : List PRow :=
  rows.filter (fun r => r.payment_status ≠ Cell.null)

/-- `drop_duplicates('suborderno', keep='last')` (app1.py line 158):
keep, of each order id, only its last row. -/
def dropDupKeepLast : List PRow → List PRow
  | [] => []
  | r :: rest =>
      if rest.any (fun r2 => r2.suborderno == r.suborderno)
      then dropDupKeepLast rest
      else r :: dropDupKeepLast rest

/-- `status_summary` (app1.py line 158): of the rows with a non-null
payment status, the last row of each order id. -/
def status_summary (rows : List PRow) : List PRow :=
  dropDupKeepLast (status_rows rows)

/-- Per-order-id status read off a summary; null when the order id is
absent (the NaN a left merge leaves behind, app1.py line 159). -/
def lookupStatus (summary : List PRow) (oid : String) : Cell :=
  match summary.find? (fun r => r.suborderno == oid) with
  | some r => r.payment_status
  | none => Cell.null

/-- Specification-side formula: the last non-null payment status among
the collected rows bearing a given order id; null when every such row
has a null status. -/
def lastStatus (rows : List PRow) (oid : String) : Cell :=
  match (rows.filter
      (fun r => r.suborderno == oid && r.payment_status ≠ Cell.null)).getLast? with
  | some r => r.payment_status
  | none => Cell.null

/-- `payment_summary` (app1.py lines 157..159, the branch taken when a
status column exists): the per-order amount summary left-joined with
the status summary on the order id. -/
def payment_summary (rows : List PRow) : List (String × ℚ × Cell) :=
  (amount_summary rows).map
    (fun p => (p.1, p.2, lookupStatus (status_summary rows) p.1))

/-- `get_final_status` (app1.py lines 173..176): the lowercased payment
status when non-null, else the lowercased order-side status when that
column resolved and the cell is non-null, else `"unknown"`. -/
def get_final_status (payment_status : Cell) (order_status_col : Option String)
    (order_status : Cell) : String :=
  if payment_status ≠ Cell.null then pyLower (pyStr payment_status)
  else
    match order_status_col with
    | some _ =>
        if order_status ≠ Cell.null then pyLower (pyStr order_status)
        else "unknown"
    | none => "unknown"

/-- The SKU→cost dictionary of app1.py lines 78..80, kept as the listing
of `(normalized sku, coerced cost)` pairs in sheet order; `mapGet`
realizes the last-write-wins dictionary lookup. -/
def cost_map (skus costs : List Cell) : List (String × ℚ) :=
  (skus.zip costs).map
    (fun p => (pyLower (pyStrip (pyStr p.1)), toNumeric0 p.2))

/-- Dictionary lookup with default, later entries overwriting earlier
ones (`pd.Series(...).to_dict()` then `dict.get(k, d)`). -/
def mapGet (m : List (String × ℚ)) (k : String) (d : ℚ) : ℚ :=
  m.foldl (fun acc p => if p.1 == k then p.2 else acc) d

/-- `get_unit_cost` (app1.py lines 181..185): the fallback cost when no
SKU column resolved; otherwise the cost-map entry for the stripped,
lowercased string form of the SKU cell, defaulting to the fallback. -/
def get_unit_cost (order_sku_col : Option String) (m : List (String × ℚ))
    (fallback_product_cost : ℚ) (skuCell : Cell) : ℚ :=
  match order_sku_col with
  | none => fallback_product_cost
  | some _ => mapGet m (pyLower (pyStrip (pyStr skuCell))) fallback_product_cost

/-- `valid_cost_statuses` (app1.py line 190). -/
def valid_cost_statuses : List String :=
  ["delivered", "exchange", "return", "customer return"]

/-- The eligibility test of app1.py line 194:
`any(x in status for x in valid_cost_statuses)`. -/
def costEligible (status : String) : Bool :=
  valid_cost_statuses.any (fun x => strContains status x)

/-- The quantity of app1.py lines 196..197: numeric cell value, 1 when
the column is missing, the cell is null, or coercion fails. -/
def toQty : Cell → ℚ
  | Cell.null => 1
  | Cell.str _ => 1
  | Cell.num q => q

/-- `calculate_total_cost` (app1.py lines 192..199): unit cost times
quantity when the final status is cost-eligible, 0 otherwise. -/
def calculate_total_cost (final_status : String) (unit_cost : ℚ)
    (qtyCell : Cell) : ℚ :=
  if costEligible final_status then unit_cost * toQty qtyCell else 0

/-- Configuration from the sidebar (app1.py lines 28..29). -/
structure Config where
  fallback_product_cost : ℚ
  packaging_cost : ℚ
  deriving DecidableEq, Repr

/-- Per-order inputs taken from the order table row. -/
structure OrderRowData where
  skuCell : Cell
  qtyCell : Cell
  orderStatusCell : Cell
  deriving DecidableEq, Repr

/-- One row of the reconciled output table (app1.py lines 169..205). -/
structure Reconciled where
  amount : ℚ
  final_status : String
  unit_cost : ℚ
  product_cost : ℚ
  packaging_cost : ℚ
  net_profit : ℚ
  deriving DecidableEq, Repr

/-- The per-row reconciliation pipeline of app1.py lines 169..205:
merge the order row with its payment summary entry (absent → amount 0,
status null), resolve the final status, look up the unit cost, apply the
status-conditioned product cost, and compute the net profit. -/
def reconcile (order_sku_col order_status_col : Option String)
    (m : List (String × ℚ)) (cfg : Config) (row : OrderRowData)
    (pay : Option (ℚ × Cell)) : Reconciled :=
  let amount : ℚ := match pay with | some p => p.1 | none => 0
  let payment_status : Cell := match pay with | some p => p.2 | none => Cell.null
  let fs := get_final_status payment_status order_status_col row.orderStatusCell
  let uc := get_unit_cost order_sku_col m cfg.fallback_product_cost row.skuCell
  let pc := calculate_total_cost fs uc row.qtyCell
  { amount := amount
    final_status := fs
    unit_cost := uc
    product_cost := pc
    packaging_cost := cfg.packaging_cost
    net_profit := amount - pc - cfg.packaging_cost }

theorem lookupAmount_nil (oid : String) : lookupAmount [] oid = 0 := rfl

theorem lookupAmount_cons (k : String) (v : ℚ) (rest : List (String × ℚ))
    (oid : String) :
    lookupAmount ((k, v) :: rest) oid =
      if k = oid then v else lookupAmount rest oid := by
  by_cases h : k = oid <;> simp [lookupAmount, h]

theorem lookupAmount_addPayment (acc : List (String × ℚ)) (k : String)
    (a : ℚ) (oid : String) :
    lookupAmount (addPayment acc k a) oid =
      if k = oid then lookupAmount acc oid + a else lookupAmount acc oid := by
  induction acc with
  | nil =>
    by_cases h : k = oid <;>
      simp [addPayment, lookupAmount_cons, lookupAmount_nil, h]
  | cons p rest ih =>
    obtain ⟨k2, v⟩ := p
    by_cases h1 : k2 = k
    · subst h1
      by_cases h2 : k2 = oid <;> simp [addPayment, lookupAmount_cons, h2]
    · by_cases h2 : k2 = oid
      · subst h2
        simp [addPayment, lookupAmount_cons, h1, Ne.symm h1]
      · simp [addPayment, lookupAmount_cons, h1, h2, ih]

theorem sumAmounts_nil (oid : String) : sumAmounts [] oid = 0 := rfl

theorem sumAmounts_cons (r : PRow) (rows : List PRow) (oid : String) :
    sumAmounts (r :: rows) oid =
      (if r.suborderno = oid then toNumeric0 r.amount else 0) +
        sumAmounts rows oid := by
  by_cases h : r.suborderno = oid <;> simp [sumAmounts, h]

theorem amount_foldl (rows : List PRow) :
    ∀ (acc : List (String × ℚ)) (oid : String),
      lookupAmount (rows.foldl (fun acc2 r =>
          addPayment acc2 r.suborderno (toNumeric0 r.amount)) acc) oid =
        lookupAmount acc oid + sumAmounts rows oid := by
  induction rows with
  | nil =>
    intro acc oid
    simp [sumAmounts_nil]
  | cons r rest ih =>
    intro acc oid
    simp only [List.foldl_cons]
    rw [ih, lookupAmount_addPayment, sumAmounts_cons]
    by_cases h : r.suborderno = oid
    · simp [h]
      ring
    · simp [h]

/-- Claim C1: for every order id, the aggregated settlement amount of
`amount_summary` equals the sum of the numeric-coerced (unparseable → 0)
amounts of all collected payment rows bearing that order id; in
particular two payments of 120.50 and -15.00 for order "X1" yield
105.50. -/
theorem c1_aggregation_correct :
    (∀ (rows : List PRow) (oid : String),
      lookupAmount (amount_summary rows) oid = sumAmounts rows oid) ∧
    lookupAmount (amount_summary
      [⟨"X1", Cell.num (120.50 : ℚ), Cell.null⟩,
       ⟨"X1", Cell.num (-15.00 : ℚ), Cell.null⟩]) "X1" = (105.50 : ℚ) := by
  have hmain : ∀ (rows : List PRow) (oid : String),
      lookupAmount (amount_summary rows) oid = sumAmounts rows oid := by
    intro rows oid
    have h := amount_foldl rows [] oid
    simpa [amount_summary, lookupAmount_nil] using h
  refine ⟨hmain, ?_⟩
  rw [hmain]
  simp [sumAmounts, toNumeric0]
  norm_num

/-- Claim C2: status resolution is total with fixed precedence: the
case-folded payment-side status when non-null, else the case-folded
order-side status when that column resolved and the cell is non-null,
else exactly "unknown"; payment "Return" beats order "Delivered" and
yields "return". -/
theorem c2_status_precedence :
    ∀ (ps : Cell) (osc : Option String) (os : Cell),
      (ps ≠ Cell.null → get_final_status ps osc os = pyLower (pyStr ps)) ∧
      (ps = Cell.null → ∀ c, osc = some c → os ≠ Cell.null →
        get_final_status ps osc os = pyLower (pyStr os)) ∧
      (ps = Cell.null → (osc = none ∨ os = Cell.null) →
        get_final_status ps osc os = "unknown") ∧
      get_final_status (Cell.str "Return") osc (Cell.str "Delivered") =
        "return" := by
  intro ps osc os
  refine ⟨?_, ?_, ?_, ?_⟩
  · intro h
    simp [get_final_status, h]
  · rintro rfl c rfl h
    simp [get_final_status, h]
  · rintro rfl h
    rcases h with rfl | rfl
    · simp [get_final_status]
    · cases osc <;> simp [get_final_status]
  · have h : (Cell.str "Return") ≠ Cell.null := by decide
    simp [get_final_status, h]
    decide

/-- Claim C3: product cost is an all-or-nothing per-order decision:
unit cost × quantity exactly once when the final status contains any
cost keyword, 0 otherwise; a status matching several keywords (such as
"customer return initiated") is charged once, never twice. -/
theorem c3_cost_all_or_nothing :
    ∀ (fs : String) (uc : ℚ) (q : Cell),
      (costEligible fs = true → calculate_total_cost fs uc q = uc * toQty q) ∧
      (costEligible fs = false → calculate_total_cost fs uc q = 0) ∧
      (strContains "customer return initiated" "return" = true ∧
       strContains "customer return initiated" "customer return" = true ∧
       calculate_total_cost "customer return initiated" uc q = uc * toQty q) := by
  intro fs uc q
  refine ⟨?_, ?_, ?_, ?_, ?_⟩
  · intro h
    simp [calculate_total_cost, h]
  · intro h
    simp [calculate_total_cost, h]
  · decide
  · decide
  · have h : costEligible "customer return initiated" = true := by decide
    simp [calculate_total_cost, h]

/-- Claim C4: net profit equals settlement amount minus product cost
minus packaging cost and may be negative; amount 200, unit cost 50,
quantity 2, packaging 5 with an eligible status yield product cost 100
and net profit 95. -/
theorem c4_net_profit :
    (∀ (osk osc : Option String) (m : List (String × ℚ)) (cfg : Config)
        (row : OrderRowData) (pay : Option (ℚ × Cell)),
      (reconcile osk osc m cfg row pay).net_profit =
        (reconcile osk osc m cfg row pay).amount -
          (reconcile osk osc m cfg row pay).product_cost -
          (reconcile osk osc m cfg row pay).packaging_cost) ∧
    (reconcile (some "sku") none [("s1", 50)] ⟨0, 5⟩
      ⟨Cell.str "s1", Cell.num 2, Cell.null⟩
      (some (200, Cell.str "Delivered"))).product_cost = 100 ∧
    (reconcile (some "sku") none [("s1", 50)] ⟨0, 5⟩
      ⟨Cell.str "s1", Cell.num 2, Cell.null⟩
      (some (200, Cell.str "Delivered"))).net_profit = 95 ∧
    (reconcile (some "sku") none [("s1", 50)] ⟨0, 5⟩
      ⟨Cell.str "s1", Cell.num 2, Cell.null⟩ none).net_profit < 0 := by
  refine ⟨?_, ?_, ?_, ?_⟩
  · intro osk osc m cfg row pay
    rfl
  · have h : costEligible (get_final_status (Cell.str "Delivered") none
        Cell.null) = true := by decide
    have hk : pyLower (pyStrip (pyStr (Cell.str "s1"))) = "s1" := by decide
    norm_num [reconcile, calculate_total_cost, h, hk, get_unit_cost, mapGet,
      toQty]
  · have h : costEligible (get_final_status (Cell.str "Delivered") none
        Cell.null) = true := by decide
    have hk : pyLower (pyStrip (pyStr (Cell.str "s1"))) = "s1" := by decide
    norm_num [reconcile, calculate_total_cost, h, hk, get_unit_cost, mapGet,
      toQty]
  · have h : costEligible (get_final_status Cell.null none Cell.null) =
        false := by decide
    have hk : pyLower (pyStrip (pyStr (Cell.str "s1"))) = "s1" := by decide
    norm_num [reconcile, calculate_total_cost, h, hk, get_unit_cost, mapGet,
      toQty]

theorem c2_witness :
    get_final_status (Cell.str "Return") (some "orderstatus")
        (Cell.str "Delivered") = pyLower (pyStr (Cell.str "Return")) ∧
    get_final_status Cell.null (some "orderstatus") (Cell.str "Delivered") =
      pyLower (pyStr (Cell.str "Delivered")) ∧
    get_final_status Cell.null none Cell.null = "unknown" :=
  ⟨(c2_status_precedence (Cell.str "Return") (some "orderstatus")
      (Cell.str "Delivered")).1 (by decide),
   (c2_status_precedence Cell.null (some "orderstatus")
      (Cell.str "Delivered")).2.1 rfl "orderstatus" rfl (by decide),
   (c2_status_precedence Cell.null none Cell.null).2.2.1 rfl (Or.inl rfl)⟩

theorem c3_witness :
    calculate_total_cost "delivered" 50 (Cell.num 2) =
      50 * toQty (Cell.num 2) ∧
    calculate_total_cost "rto" 50 (Cell.num 2) = 0 :=
  ⟨(c3_cost_all_or_nothing "delivered" 50 (Cell.num 2)).1 (by decide),
   (c3_cost_all_or_nothing "rto" 50 (Cell.num 2)).2.1 (by decide)⟩

theorem processSheet_eq_nil_of_unresolved (g : List (List Cell))
    (h : find_column (chosenDF g) ["suborder"] = none ∨
         find_column (chosenDF g) amountKeywords = none) :
    processSheet g = [] := by
  unfold processSheet
  split
  · rfl
  · rcases h with h | h
    · rcases h2 : find_column (chosenDF g) amountKeywords with _ | c <;>
        simp [h, h2]
    · rcases h2 : find_column (chosenDF g) ["suborder"] with _ | c <;>
        simp [h, h2]

theorem processSheets_skip (pre post : List SheetSrc) (g : List (List Cell))
    (h : processSheet g = []) :
    processSheets (pre ++ SheetSrc.ok g :: post) =
      processSheets (pre ++ post) := by
  induction pre with
  | nil => simp [processSheets, h]
  | cons s rest ih =>
    cases s with
    | ok g2 => simp [processSheets, ih]
    | raises => simp [processSheets]

theorem processSheets_raises_drop (pre post : List SheetSrc) :
    processSheets (pre ++ SheetSrc.raises :: post) = processSheets pre := by
  induction pre with
  | nil => simp [processSheets]
  | cons s rest ih =>
    cases s with
    | ok g2 => simp [processSheets, ih]
    | raises => simp [processSheets]

/-- Claim C5 (amended): a payment sheet whose header, after the
fallback, resolves no order-id or no amount column is skipped, and the
collected rows — hence the aggregated totals — are exactly those with
the sheet absent, including later sheets of the same file; however a
sheet whose read raises an exception drops the remaining sheets of the
same file (the rows of its earlier sheets are kept). -/
theorem c5_subtable_isolation :
    (∀ (pre post : List SheetSrc) (g : List (List Cell)),
      (find_column (chosenDF g) ["suborder"] = none ∨
       find_column (chosenDF g) amountKeywords = none) →
      processSheets (pre ++ SheetSrc.ok g :: post) =
        processSheets (pre ++ post) ∧
      ∀ oid, lookupAmount (amount_summary
          (processSheets (pre ++ SheetSrc.ok g :: post))) oid =
        lookupAmount (amount_summary (processSheets (pre ++ post))) oid) ∧
    (∀ (pre post : List SheetSrc),
      processSheets (pre ++ SheetSrc.raises :: post) = processSheets pre) := by
  constructor
  · intro pre post g h
    have he := processSheets_skip pre post g
      (processSheet_eq_nil_of_unresolved g h)
    exact ⟨he, fun oid => by rw [he]⟩
  · exact processSheets_raises_drop

/-- A well-formed payment sheet: two data rows, resolvable columns. -/
def gGood : List (List Cell) :=
  [[Cell.str "Sub Order No", Cell.str "Final Settlement Amount"],
   [Cell.str "X1", Cell.num 100],
   [Cell.str "X2", Cell.num 7]]

/-- Claim C5 as stated is false at a concrete input: a sheet that fails
to parse is not isolated — it drops the later sheets of its own file,
so the aggregated totals are not those obtained with the failing sheet
absent. -/
theorem c5_counterexample :
    processSheets [SheetSrc.raises, SheetSrc.ok gGood] ≠
      processSheets [SheetSrc.ok gGood] ∧
    lookupAmount (amount_summary
      (processSheets [SheetSrc.raises, SheetSrc.ok gGood])) "X1" = 0 ∧
    lookupAmount (amount_summary
      (processSheets [SheetSrc.ok gGood])) "X1" = 100 :=
  ⟨by decide, by decide, by decide⟩

/-- A sheet none of whose headers resolve to order-id or amount. -/
def gNoCols : List (List Cell) :=
  [[Cell.str "foo", Cell.str "bar"],
   [Cell.str "a", Cell.num 1],
   [Cell.str "b", Cell.num 2]]

theorem c5_witness :
    processSheets [SheetSrc.ok gNoCols, SheetSrc.ok gGood] =
      processSheets [SheetSrc.ok gGood] :=
  (c5_subtable_isolation.1 [] [SheetSrc.ok gGood] gNoCols
    (Or.inl (by decide))).1

/-- A sheet with a junk first header row, exactly 2 data rows, whose
second row holds the real header. -/
def gTwoRows : List (List Cell) :=
  [[Cell.str "junk1", Cell.str "junk2"],
   [Cell.str "Sub Order No", Cell.str "Final Settlement Amount"],
   [Cell.str "S1", Cell.num 50]]

/-- Claim C6 as stated is false at a concrete input: with exactly 2
data rows and no order-id token in the header, the code makes no
fallback attempt at all (the guard is `len(df) > 2`), so the sheet is
skipped even though the second-row header would have resolved. -/
theorem c6_counterexample :
    2 ≤ (read0 gTwoRows).data.length ∧
    headerHasSuborder (read0 gTwoRows).cols = false ∧
    chosenDF gTwoRows ≠ normalize_columns (read1 gTwoRows) ∧
    find_column (normalize_columns (read1 gTwoRows)) ["suborder"] ≠ none ∧
    processSheet gTwoRows = [] :=
  ⟨by decide, by decide, by decide, by decide, by decide⟩

/-- Claim C6 (amended): for a sheet with more than 2 data rows whose
raw header names carry no "suborder" token, exactly one fallback
re-read with the second row as header is made before resolving
columns; if order-id or amount still do not resolve, the sheet is
skipped silently. -/
theorem c6_header_fallback :
    ∀ g : List (List Cell),
      headerHasSuborder (read0 g).cols = false →
      2 < (read0 g).data.length →
      chosenDF g = normalize_columns (read1 g) ∧
      ((find_column (chosenDF g) ["suborder"] = none ∨
        find_column (chosenDF g) amountKeywords = none) →
       processSheet g = []) := by
  intro g h1 h2
  constructor
  · simp only [chosenDF]
    rw [if_pos ⟨h1, h2⟩]
  · exact processSheet_eq_nil_of_unresolved g

/-- A sheet with three data rows and a junk first header row. -/
def gThreeRows : List (List Cell) :=
  [[Cell.str "junk1", Cell.str "junk2"],
   [Cell.str "Sub Order No", Cell.str "Final Settlement Amount"],
   [Cell.str "S1", Cell.num 50],
   [Cell.str "S2", Cell.num 60]]

theorem c6_witness :
    chosenDF gThreeRows = normalize_columns (read1 gThreeRows) :=
  (c6_header_fallback gThreeRows (by decide) (by decide)).1

/-- Claim C7: the Column Resolver returns the first header, in original
column order, whose normalized name contains any keyword as a
substring, and "not found" exactly when no header matches; it is a pure
function, and normalization leaves the cell data untouched. -/
theorem c7_find_column :
    ∀ (df : DF) (keywords : List String),
      (∀ c, find_column df keywords = some c →
        matchesKeyword keywords c = true ∧
        ∃ pre post, df.cols = pre ++ c :: post ∧
          ∀ c2 ∈ pre, matchesKeyword keywords c2 = false) ∧
      (find_column df keywords = none ↔
        ∀ c ∈ df.cols, matchesKeyword keywords c = false) ∧
      (normalize_columns df).data = df.data := by
  intro df keywords
  refine ⟨?_, ?_, rfl⟩
  · intro c h
    rw [find_column, List.find?_eq_some] at h
    obtain ⟨hp, pre, post, hcols, hpre⟩ := h
    exact ⟨hp, pre, post, hcols, fun c2 hc2 => by simpa using hpre c2 hc2⟩
  · rw [find_column, List.find?_eq_none]
    constructor
    · intro h c hc
      simpa using h c hc
    · intro h c hc
      simp [h c hc]

theorem c7_witness :
    matchesKeyword ["suborder", "orderid"] "suborderno" = true ∧
    ∃ pre post,
      (DF.mk ["productname", "suborderno"] []).cols =
        pre ++ "suborderno" :: post ∧
      ∀ c2 ∈ pre, matchesKeyword ["suborder", "orderid"] c2 = false :=
  (c7_find_column (DF.mk ["productname", "suborderno"] [])
    ["suborder", "orderid"]).1 "suborderno" (by decide)

theorem getLast?_cons_of_ne_nil {α : Type} (a : α) (xs : List α)
    (h : xs ≠ []) : (a :: xs).getLast? = xs.getLast? := by
  cases xs with
  | nil => exact absurd rfl h
  | cons b ys => simp [List.getLast?_cons_cons]

theorem find?_dropDupKeepLast (l : List PRow) (oid : String) :
    (dropDupKeepLast l).find? (fun r => r.suborderno == oid) =
      (l.filter (fun r => r.suborderno == oid)).getLast? := by
  induction l with
  | nil => rfl
  | cons r rest ih =>
    simp only [dropDupKeepLast]
    by_cases hdup : rest.any (fun r2 => r2.suborderno == r.suborderno) = true
    · rw [if_pos hdup]
      by_cases hk : r.suborderno = oid
      · have hne : rest.filter (fun r2 => r2.suborderno == oid) ≠ [] := by
          rw [List.any_eq_true] at hdup
          obtain ⟨r2, hr2mem, hr2⟩ := hdup
          have hr2k : r2.suborderno = oid := by
            rw [beq_iff_eq] at hr2
            rw [hr2, hk]
          intro hempty
          have hmem : r2 ∈ rest.filter (fun r2 => r2.suborderno == oid) := by
            rw [List.mem_filter]
            exact ⟨hr2mem, by simp [hr2k]⟩
          rw [hempty] at hmem
          simp at hmem
        rw [List.filter_cons_of_pos (by simp [hk]),
          getLast?_cons_of_ne_nil _ _ hne]
        exact ih
      · rw [List.filter_cons_of_neg (by simp [hk])]
        exact ih
    · rw [if_neg hdup]
      by_cases hk : r.suborderno = oid
      · have hempty : rest.filter (fun r2 => r2.suborderno == oid) = [] := by
          rw [List.filter_eq_nil_iff]
          intro r2 hr2 hcon
          apply hdup
          rw [List.any_eq_true]
          refine ⟨r2, hr2, ?_⟩
          rw [beq_iff_eq] at hcon ⊢
          rw [hcon, hk]
        rw [List.filter_cons_of_pos (by simp [hk]), hempty,
          List.find?_cons_of_pos _ (by simp [hk])]
        rfl
      · rw [List.find?_cons_of_neg _ (by simp [hk]),
          List.filter_cons_of_neg (by simp [hk])]
        exact ih

theorem lookupStatus_eq_lastStatus (rows : List PRow) (oid : String) :
    lookupStatus (status_summary rows) oid = lastStatus rows oid := by
  rw [lookupStatus, status_summary, find?_dropDupKeepLast, lastStatus,
    status_rows, List.filter_filter]

/-- Claim C8: when some collected payment row carries a status value,
the payment summary assigns each order id, left-joined onto the amount
summary, the last non-null status among its collected rows; an order id
all of whose rows have null status receives a null status. -/
theorem c8_last_status :
    ∀ rows : List PRow,
      (∃ r ∈ rows, r.payment_status ≠ Cell.null) →
      (∀ (oid : String) (amt : ℚ) (st : Cell),
        (oid, amt, st) ∈ payment_summary rows → st = lastStatus rows oid) ∧
      (∀ oid : String,
        (∀ r ∈ rows, r.suborderno = oid → r.payment_status = Cell.null) →
        lookupStatus (status_summary rows) oid = Cell.null) := by
  intro rows _h
  constructor
  · intro oid amt st hmem
    rw [payment_summary, List.mem_map] at hmem
    obtain ⟨p, _hp, heq⟩ := hmem
    have h1 : p.1 = oid := congrArg (fun x => x.1) heq
    have h3 : lookupStatus (status_summary rows) p.1 = st :=
      congrArg (fun x => x.2.2) heq
    rw [← h3, h1, lookupStatus_eq_lastStatus]
  · intro oid hall
    rw [lookupStatus_eq_lastStatus, lastStatus]
    have hempty : rows.filter
        (fun r => r.suborderno == oid && decide (r.payment_status ≠ Cell.null))
        = [] := by
      rw [List.filter_eq_nil_iff]
      intro r hr hcon
      rw [Bool.and_eq_true, beq_iff_eq, decide_eq_true_eq] at hcon
      obtain ⟨hck, hcs⟩ := hcon
      exact hcs (hall r hr hck)
    rw [hempty]
    rfl

/-- Concrete collected payment rows for the C8 witness. -/
def rowsW : List PRow :=
  [⟨"A", Cell.num 10, Cell.str "Return"⟩, ⟨"B", Cell.num 3, Cell.null⟩]

theorem c8_witness :
    Cell.str "Return" = lastStatus rowsW "A" ∧
    lookupStatus (status_summary rowsW) "B" = Cell.null :=
  ⟨(c8_last_status rowsW (by decide)).1 "A" 10 (Cell.str "Return") (by decide),
   (c8_last_status rowsW (by decide)).2 "B" (by decide)⟩

theorem mapGet_cons (p : String × ℚ) (rest : List (String × ℚ))
    (k : String) (d : ℚ) :
    mapGet (p :: rest) k d = mapGet rest k (if p.1 = k then p.2 else d) := by
  by_cases h : p.1 = k <;> simp [mapGet, h]

theorem mapGet_not_found (m : List (String × ℚ)) (k : String) (d : ℚ)
    (h : ∀ p ∈ m, p.1 ≠ k) : mapGet m k d = d := by
  induction m generalizing d with
  | nil => rfl
  | cons p rest ih =>
    rw [mapGet_cons, if_neg (h p (by simp))]
    exact ih _ (fun p2 hp2 => h p2 (by simp [hp2]))

/-- Claim C9: when a SKU column resolved but the row's SKU cell is
null, the unit-cost lookup uses the literal string "nan" as the key:
the configured fallback applies unless the cost table has an entry
whose normalized SKU is "nan", in which case that entry's cost is
applied instead of the fallback. -/
theorem c9_nan_sku :
    ∀ (c : String) (skus costs : List Cell) (fb : ℚ),
      get_unit_cost (some c) (cost_map skus costs) fb Cell.null =
        mapGet (cost_map skus costs) "nan" fb ∧
      ((∀ p ∈ cost_map skus costs, p.1 ≠ "nan") →
        get_unit_cost (some c) (cost_map skus costs) fb Cell.null = fb) := by
  intro c skus costs fb
  have hk : pyLower (pyStrip (pyStr Cell.null)) = "nan" := by decide
  constructor
  · simp only [get_unit_cost, hk]
  · intro h
    simp only [get_unit_cost, hk]
    exact mapGet_not_found _ _ _ h

theorem c9_witness :
    get_unit_cost (some "sku") (cost_map [Cell.null] [Cell.num 7]) 3
        Cell.null =
      mapGet (cost_map [Cell.null] [Cell.num 7]) "nan" 3 ∧
    get_unit_cost (some "sku") (cost_map [Cell.str "abc"] [Cell.num 7]) 3
        Cell.null = 3 :=
  ⟨(c9_nan_sku "sku" [Cell.null] [Cell.num 7] 3).1,
   (c9_nan_sku "sku" [Cell.str "abc"] [Cell.num 7] 3).2 (by decide)⟩

/-- Claim C10: the keyword "customer return" in the cost-eligibility
set is semantically inert: every string containing "customer return"
contains "return", so the predicate and the computed product cost are
unchanged when the fourth keyword is removed. -/
theorem c10_customer_return_inert :
    ∀ (s : String) (uc : ℚ) (q : Cell),
      costEligible s =
        (["delivered", "exchange", "return"].any
          (fun x => strContains s x)) ∧
      calculate_total_cost s uc q =
        (if (["delivered", "exchange", "return"].any
              (fun x => strContains s x)) = true
         then uc * toQty q else 0) := by
  intro s uc q
  have key : costEligible s =
      (["delivered", "exchange", "return"].any (fun x => strContains s x)) := by
    cases h : strContains s "customer return" with
    | false =>
      simp [costEligible, valid_cost_statuses, List.any_cons, List.any_nil, h]
    | true =>
      have hr : strContains s "return" = true :=
        strContains_trans (by decide) h
      simp [costEligible, valid_cost_statuses, List.any_cons, List.any_nil,
        h, hr]
  refine ⟨key, ?_⟩
  simp only [calculate_total_cost, key]

end App1
